import Mathlib

/-!
Verification of the transaction-construction / swap-orchestration core of the
`cli-solanize` repository, shallowly embedded in Lean.

Rust `f64` values are modelled as rational numbers together with an explicit
IEEE-754 round-to-nearest-even operation `roundF` (53-bit significand, normal
range); every floating-point multiplication, division and integer/float cast
performed by the source is made explicit through `roundF`.  Comparisons on
`f64` values are exact and are modelled by the rational order.  Network and
library collaborators (RPC node, Jupiter aggregator, bincode/base58/base64
codecs, signers) are modelled as an explicit `World` of response functions,
and the requests a pipeline issues are recorded in an event trace.
-/

set_option maxRecDepth 1000000

namespace CliSolanize

/-! ## IEEE-754 binary64 model -/

/-- Fuel-driven floor of log₂ (fuel-based so the kernel can evaluate it). -/
def log2f : ℕ → ℕ → ℕ
  | 0, _ => 0
  | fuel + 1, n => if 2 ≤ n then log2f fuel (n / 2) + 1 else 0

/-- Floor of log₂, i.e. `⌊log₂ n⌋` for `n ≥ 1` (0 for `n = 0`). -/
def natLog2 (n : ℕ) : ℕ := log2f n n

/-- Fuel-driven ceiling of log₂. -/
def clog2f : ℕ → ℕ → ℕ
  | 0, _ => 0
  | fuel + 1, n => if 2 ≤ n then clog2f fuel ((n + 1) / 2) + 1 else 0

/-- Ceiling of log₂, i.e. `⌈log₂ n⌉` for `n ≥ 1` (0 for `n = 0`). -/
def natClog2 (n : ℕ) : ℕ := clog2f n n

/-- Floor of log₂, `⌊log₂ q⌋`, for a positive rational, used to find the binade of an
IEEE-754 double. -/
def qlog2 (q : ℚ) : ℤ :=
  if 1 ≤ q then (natLog2 ⌊q⌋.toNat : ℤ) else -(natClog2 ⌈q⁻¹⌉.toNat : ℤ)

/-- Round a rational to the nearest integer, ties to even. -/
def rnEven (scaled : ℚ) : ℤ :=
  if scaled - (⌊scaled⌋ : ℚ) < 1 / 2 then ⌊scaled⌋
  else if 1 / 2 < scaled - (⌊scaled⌋ : ℚ) then ⌊scaled⌋ + 1
  else if ⌊scaled⌋ % 2 = 0 then ⌊scaled⌋ else ⌊scaled⌋ + 1

/-- Round a positive rational to 53 significant bits: scale into
`[2^52, 2^53)`, round to the nearest integer significand (ties to even),
scale back. -/
def roundPos (a : ℚ) : ℚ :=
  (rnEven (a * 2 ^ (-(qlog2 a - 52))) : ℚ) * 2 ^ (qlog2 a - 52)

/-- Rounding of IEEE-754 binary64, round-to-nearest ties-to-even, on the normal range:
the exact rational value of an operation is rounded to 53 significant bits.
Overflow, subnormals and NaN do not arise at the magnitudes the program
handles and are not modelled. -/
def roundF (q : ℚ) : ℚ :=
  if q = 0 then 0 else if q < 0 then -roundPos (-q) else roundPos q

/-- Rust `f64` multiplication: exact product, then one rounding. -/
def fmul (x y : ℚ) : ℚ := roundF (x * y)

/-- Rust `f64` division: exact quotient, then one rounding. -/
def fdiv (x y : ℚ) : ℚ := roundF (x / y)

/-- Rust `as u64` on an `f64`: saturating cast that truncates toward zero;
negative values clamp to `0`, values above `u64::MAX` clamp to the maximum. -/
def f64ToU64 (q : ℚ) : ℕ := min ⌊q⌋.toNat (2 ^ 64 - 1)

/-- The constant `solana_sdk::native_token::LAMPORTS_PER_SOL`. -/
def LAMPORTS_PER_SOL : ℕ := 1000000000

/-- Conversion `(amount * 10_f64.powi(decimals)) as u64` from `jupiter.rs` (and, with
`decimals = 9`, `(amount * LAMPORTS_PER_SOL as f64) as u64` from
`transaction.rs` line 77): the float product is rounded to nearest, then the
saturating cast truncates toward zero.  `10_f64.powi(d)` is exact for the
precisions the program uses (d ≤ 15), so the power is taken exactly. -/
def to_base_units (amount : ℚ) (decimals : ℕ) : ℕ :=
  f64ToU64 (fmul amount (10 ^ decimals))

/-- Conversion `balance as f64 / LAMPORTS_PER_SOL as f64` from `wallet.rs` lines 220-221
(and the analogous `out_amount as f64 / 10_f64.powi(d)` in `jupiter.rs`):
the integer is first rounded to an `f64`, then divided with one rounding. -/
def from_base_units (n : ℕ) (decimals : ℕ) : ℚ :=
  fdiv (roundF (n : ℚ)) (10 ^ decimals)

/-! ## Integer casts used by the history classifier -/

/-- Two's-complement wrap-around into the `i64` range, as performed by `as
i64` conversions and by release-mode `i64` arithmetic. -/
def wrapI64 (x : ℤ) : ℤ := (x + 2 ^ 63) % 2 ^ 64 - 2 ^ 63

/-- Cast `u64 as i64`: bit reinterpretation. -/
def u64ToI64 (n : ℕ) : ℤ := wrapI64 (n : ℤ)

/-- Absolute value `i64::abs` with release mode wrap-around at `i64::MIN`. -/
def i64Abs (x : ℤ) : ℤ := wrapI64 |x|

/-! ## String helpers (executable models of the std library calls) -/

/-- Model of `str::to_uppercase` on the ASCII symbols the program handles. -/
def toUpperString (s : String) : String := String.mk (s.data.map Char.toUpper)

/-- Accumulating decimal parse over a digit list. -/
def parseU64Aux : List Char → ℕ → Option ℕ
  | [], acc => some acc
  | c :: cs, acc =>
    if c.isDigit then parseU64Aux cs (acc * 10 + (c.toNat - 48)) else none

/-- Model of `str::parse::<u64>`: digits only, range-checked. -/
def parseU64 (s : String) : Option ℕ :=
  if s.data = [] then none
  else
    match parseU64Aux s.data 0 with
    | some n => if n < 2 ^ 64 then some n else none
    | none => none

/-! ## Data model (`error.rs`, solana-sdk message shapes, Jupiter API) -/

abbrev Address := String
abbrev Blockhash := String
abbrev Bytes := List ℕ

/-- The error enum `SolanaClientError` from `error.rs`. -/
inductive SolanaClientError
  | WalletNotFound (path : String)
  | InvalidWalletFormat
  | NetworkError (source : String)
  | TransactionFailed (reason : String)
  | InsufficientBalance (current required : ℚ)
  | InvalidAddress (address : String)
  | ConfigError (message : String)
deriving DecidableEq

/-- An `anyhow::Error`: either a structured `SolanaClientError` or an opaque
error from a collaborating library (`?` on reqwest/bincode/base64/parse). -/
inductive AppError
  | sol (e : SolanaClientError)
  | other (message : String)
deriving DecidableEq

/-- The struct `solana_sdk::message::MessageHeader`. -/
structure MessageHeader where
  numRequiredSignatures : ℕ
  numReadonlySignedAccounts : ℕ
  numReadonlyUnsignedAccounts : ℕ
deriving DecidableEq

/-- Instruction `system_instruction::transfer(from, to, lamports)`: the data content of
the native-transfer instruction the builder assembles. -/
structure TransferInstruction where
  source : Address
  destination : Address
  lamports : ℕ
deriving DecidableEq

/-- A legacy `solana_sdk::message::Message`; instructions beyond the native
transfer are irrelevant to the verified claims and are represented by the
transfer instructions the builder placed in the message. -/
structure LegacyMessage where
  header : MessageHeader
  accountKeys : List Address
  recentBlockhash : Blockhash
  instructions : List TransferInstruction
deriving DecidableEq

/-- A `v0::Message` (versioned shape, own account-key list). -/
structure V0Message where
  header : MessageHeader
  accountKeys : List Address
  recentBlockhash : Blockhash
deriving DecidableEq

/-- The tagged union `solana_sdk::message::VersionedMessage`. -/
inductive VersionedMessage
  | legacy (m : LegacyMessage)
  | v0 (m : V0Message)
deriving DecidableEq

/-- A legacy `solana_sdk::transaction::Transaction`. -/
structure Transaction where
  signatures : List String
  message : LegacyMessage
deriving DecidableEq

/-- The struct `solana_sdk::transaction::VersionedTransaction`. -/
structure VersionedTransaction where
  signatures : List String
  message : VersionedMessage
deriving DecidableEq

def VersionedMessage.recentBlockhash : VersionedMessage → Blockhash
  | .legacy m => m.recentBlockhash
  | .v0 m => m.recentBlockhash

def VersionedMessage.accountKeysList : VersionedMessage → List Address
  | .legacy m => m.accountKeys
  | .v0 m => m.accountKeys

def VersionedMessage.numRequiredSignatures : VersionedMessage → ℕ
  | .legacy m => m.header.numRequiredSignatures
  | .v0 m => m.header.numRequiredSignatures

/-- From `jupiter.rs` lines 200-214: the required signers of the decoded swap
transaction are the first `num_required_signatures` account keys of the
message, for the Legacy and the V0 shape alike. -/
def extract_required_signers : VersionedMessage → List Address
  | .legacy legacyMsg =>
      legacyMsg.accountKeys.take legacyMsg.header.numRequiredSignatures
  | .v0 v0Msg =>
      v0Msg.accountKeys.take v0Msg.header.numRequiredSignatures

/-- The query parameters of the Jupiter `/quote` GET request. -/
structure QuoteRequest where
  inputMint : String
  outputMint : String
  amount : ℕ
  slippageBps : ℕ
deriving DecidableEq

/-- One `RoutePlan` entry of a Jupiter quote. -/
structure RoutePlan where
  ammKey : String
  label : String
  inputMint : String
  outputMint : String
  inAmount : String
  outAmount : String
  feeAmount : String
  feeMint : String
  percent : ℕ
deriving DecidableEq

/-- The struct `QuoteResponse` from `jupiter.rs`. -/
structure QuoteResponse where
  inputMint : String
  inAmount : String
  outputMint : String
  outAmount : String
  otherAmountThreshold : String
  swapMode : String
  slippageBps : ℕ
  platformFee : Option (String × ℕ)
  priceImpactPct : String
  routePlan : List RoutePlan
deriving DecidableEq

/-- The struct `SwapRequest` from `jupiter.rs`: the body of the `/swap` POST request. -/
structure SwapRequest where
  quoteResponse : QuoteResponse
  userPublicKey : String
  wrapAndUnwrapSol : Bool
  useSharedAccounts : Bool
  feeAccount : Option String
  trackingAccount : Option String
  computeUnitPriceMicroLamports : Option ℕ
  prioritizationFeeLamports : Option ℕ
  asLegacyTransaction : Bool
  useTokenLedger : Bool
  destinationTokenAccount : Option String
deriving DecidableEq

/-- The struct `SwapResponse` from `jupiter.rs`.  The base64 `swapTransaction` payload
is kept as the opaque string the aggregator returned. -/
structure SwapResponse where
  swapTransaction : String
  lastValidBlockHeight : ℕ
  prioritizationFeeLamports : Option ℕ
  computeUnitLimit : Option ℕ
  dynamicSlippageReport : Option String
  simulationError : Option String
deriving DecidableEq

/-- The struct `crate::web::QuoteInfo`. -/
structure QuoteInfo where
  expectedOutput : ℚ
  priceImpact : ℚ
  routeSteps : ℕ
deriving DecidableEq

/-- The slice of `config.toml` the verified operations read. -/
structure Config where
  rpcUrl : String
  tokensSol : String
  tokensUsdc : String
  slippageBps : ℕ
  jupiterApiUrl : String
deriving DecidableEq

/-- Outcome of a reqwest call: transport failure (`send().await?`),
non-success HTTP status (handled via `NetworkError`), or a decoded body. -/
inductive HttpResult (α : Type)
  | transportError (e : String)
  | badStatus (body : String)
  | ok (value : α)

/-- Externally observable interactions of a pipeline run. -/
inductive Event
  | quoteReq (r : QuoteRequest)
  | buildReq (r : SwapRequest)
  | latestBlockhashReq
  | decodeB58 (s : String)
  | decodeB64 (s : String)
  | submitLegacy (t : Transaction)
  | submitVersioned (t : VersionedTransaction)
deriving DecidableEq

def Event.isNegotiation : Event → Bool
  | .quoteReq _ => true
  | .buildReq _ => true
  | _ => false

def Event.isSubmit : Event → Bool
  | .submitLegacy _ => true
  | .submitVersioned _ => true
  | _ => false

/-- The external collaborators: RPC node, aggregator, key store, codecs and
signer.  Each field gives the response the collaborator returns during the
modelled run. -/
structure World where
  /-- Result of `wallet::load_keypair(config)` followed by `.pubkey()`. -/
  keypairPubkey : Except AppError Address
  /-- whether `Pubkey::from_str` accepts the string. -/
  validPubkey : String → Bool
  /-- Result of `wallet::get_balance(config)` (own keypair), in SOL (`f64` value). -/
  getBalance : Except AppError ℚ
  /-- Result of `wallet::get_balance_for_pubkey(config, pk)`, in SOL (`f64` value). -/
  getBalanceFor : Address → Except AppError ℚ
  /-- Result of `RpcClient::get_latest_blockhash()`. -/
  latestBlockhash : Except AppError Blockhash
  /-- the Jupiter `/quote` endpoint. -/
  quoteApi : QuoteRequest → HttpResult QuoteResponse
  /-- the Jupiter `/swap` endpoint. -/
  swapApi : SwapRequest → HttpResult SwapResponse
  /-- Behavior of `str::parse::<f64>` (used for `price_impact_pct`). -/
  parseF64 : String → Option ℚ
  /-- Behavior of `base64::decode`. -/
  base64Decode : String → Except AppError Bytes
  /-- Behavior of `bs58::decode(..).into_vec()`. -/
  base58Decode : String → Except AppError Bytes
  /-- Behavior of `bincode::deserialize::<Transaction>`. -/
  deserializeLegacy : Bytes → Except AppError Transaction
  /-- Behavior of `bincode::deserialize::<VersionedTransaction>`. -/
  deserializeVersioned : Bytes → Except AppError VersionedTransaction
  /-- ed25519 signature production by the held keypair over a message. -/
  sign : LegacyMessage → Address → String
  /-- Behavior of `VersionedTransaction::try_new(message, signers)`. -/
  trySignVersioned : VersionedMessage → Address → Except AppError VersionedTransaction
  /-- Behavior of `RpcClient::send_and_confirm_transaction` (legacy shape). -/
  sendLegacy : Transaction → Except String String
  /-- Behavior of `RpcClient::send_and_confirm_transaction` (versioned shape). -/
  sendVersioned : VersionedTransaction → Except String String

/-- Constructor `solana_sdk::message::Message::new(instructions, payer)`: the compiled
legacy message records the fee payer and the instructions; the account-key
compilation internals of the SDK are irrelevant to the verified claims and
are compressed to payer followed by instruction accounts.  The SDK
initializes `recent_blockhash` to the default hash; the builder overwrites
it. -/
def Message.new (instructions : List TransferInstruction) (payer : Option Address) :
    LegacyMessage :=
  { header := { numRequiredSignatures := 1, numReadonlySignedAccounts := 0,
                numReadonlyUnsignedAccounts := 1 }
    accountKeys :=
      (match payer with | some p => [p] | none => []) ++
        instructions.flatMap (fun i => [i.source, i.destination])
    recentBlockhash := ""
    instructions := instructions }

/-- Constructor `Transaction::new(&[keypair], message, recent_blockhash)`: per the SDK
contract, the blockhash is written into the message and the message is
signed by the keypair. -/
def Transaction.new (sign : LegacyMessage → Address → String) (signer : Address)
    (message : LegacyMessage) (recentBlockhash : Blockhash) : Transaction :=
  let msg := { message with recentBlockhash := recentBlockhash }
  { signatures := [sign msg signer], message := msg }

/-- Method `Transaction::sign(&[keypair], blockhash)` on an existing transaction:
writes the blockhash and replaces the signatures. -/
def Transaction.signWith (sign : LegacyMessage → Address → String)
    (t : Transaction) (signer : Address) (recentBlockhash : Blockhash) : Transaction :=
  let msg := { t.message with recentBlockhash := recentBlockhash }
  { signatures := [sign msg signer], message := msg }

/-! ## Operations (`transaction.rs`, `jupiter.rs`) -/

/-- From `transaction.rs` lines 57-101, `create_transaction`: load keypair, parse
recipient, check freshly queried balance, convert the amount to lamports,
fetch a blockhash, build and sign the transfer.  The returned base58 wire
string is modelled by the signed transaction it encodes (the encoding is
injective). -/
def create_transaction (w : World) (toAddress : String) (amount : ℚ) :
    Except AppError Transaction :=
  match w.keypairPubkey with
  | .error e => .error e
  | .ok fromPubkey =>
    if w.validPubkey toAddress then
      match w.getBalance with
      | .error e => .error e
      | .ok currentBalance =>
        if currentBalance < amount then
          .error (.sol (.InsufficientBalance currentBalance amount))
        else
          let lamports := to_base_units amount 9
          let instruction : TransferInstruction :=
            { source := fromPubkey, destination := toAddress, lamports := lamports }
          match w.latestBlockhash with
          | .error e => .error e
          | .ok recentBlockhash =>
            let message := Message.new [instruction] (some fromPubkey)
            .ok (Transaction.new w.sign fromPubkey message recentBlockhash)
    else .error (.sol (.InvalidAddress toAddress))

/-- From `transaction.rs` lines 103-161, `prepare_sol_transfer`: like
`create_transaction` but balance-checked against the supplied payer and left
unsigned; returns (wire transaction, required signers, blockhash string). -/
def prepare_sol_transfer (w : World) (payerPubkey : Address) (toAddress : String)
    (amount : ℚ) : Except AppError (Transaction × List Address × Blockhash) :=
  if w.validPubkey toAddress then
    match w.getBalanceFor payerPubkey with
    | .error e => .error e
    | .ok currentBalance =>
      if currentBalance < amount then
        .error (.sol (.InsufficientBalance currentBalance amount))
      else
        let lamports := to_base_units amount 9
        let instruction : TransferInstruction :=
          { source := payerPubkey, destination := toAddress, lamports := lamports }
        match w.latestBlockhash with
        | .error e => .error e
        | .ok recentBlockhash =>
          let message := Message.new [instruction] (some payerPubkey)
          let transaction : Transaction :=
            { signatures := [],
              message := { message with recentBlockhash := recentBlockhash } }
          .ok (transaction, [payerPubkey], recentBlockhash)
  else .error (.sol (.InvalidAddress toAddress))

/-- From `transaction.rs` lines 163-190, `submit_signed_transaction`: base64
decode, try the Legacy shape, then the Versioned shape, and fail with
`TransactionFailed "Invalid transaction format"` if neither deserializes;
the trace records which (if any) transaction was sent to the node. -/
def submit_signed_transaction (w : World) (signedTransactionB64 : String) :
    Except AppError String × List Event :=
  match w.base64Decode signedTransactionB64 with
  | .error e => (.error e, [])
  | .ok txBytes =>
    match w.deserializeLegacy txBytes with
    | .ok transaction =>
      (match w.sendLegacy transaction with
       | .ok signature => (.ok signature, [.submitLegacy transaction])
       | .error e => (.error (.other e), [.submitLegacy transaction]))
    | .error _ =>
      match w.deserializeVersioned txBytes with
      | .ok versionedTx =>
        (match w.sendVersioned versionedTx with
         | .ok signature => (.ok signature, [.submitVersioned versionedTx])
         | .error e => (.error (.other e), [.submitVersioned versionedTx]))
      | .error _ =>
        (.error (.sol (.TransactionFailed "Invalid transaction format")), [])

/-- From `jupiter.rs` lines 126-144, `get_token_mint`. -/
def get_token_mint (w : World) (cfg : Config) (symbol : String) :
    Except AppError String :=
  let symbolUpper := toUpperString symbol
  if symbolUpper = "SOL" then .ok cfg.tokensSol
  else if symbolUpper = "USDC" then .ok cfg.tokensUsdc
  else if w.validPubkey symbol then .ok symbol
  else .error (.sol (.InvalidAddress ("Unknown token: " ++ symbol)))

/-- From `jupiter.rs` lines 234-269, `get_quote`: GET `/quote` with the mint
pair, amount and configured slippage; non-success status becomes
`NetworkError` carrying the body text. -/
def get_quote (w : World) (cfg : Config) (inputMint outputMint : String)
    (amount : ℕ) : Except AppError QuoteResponse × List Event :=
  let request : QuoteRequest :=
    { inputMint := inputMint, outputMint := outputMint, amount := amount,
      slippageBps := cfg.slippageBps }
  match w.quoteApi request with
  | .transportError e => (.error (.other e), [.quoteReq request])
  | .badStatus body => (.error (.sol (.NetworkError body)), [.quoteReq request])
  | .ok quote => (.ok quote, [.quoteReq request])

/-- The `/swap` POST body built by `get_swap_transaction` (`jupiter.rs`
lines 279-291), with its fixed field values. -/
def buildSwapRequest (quote : QuoteResponse) (userPubkey : Address) : SwapRequest :=
  { quoteResponse := quote
    userPublicKey := userPubkey
    wrapAndUnwrapSol := true
    useSharedAccounts := true
    feeAccount := none
    trackingAccount := none
    computeUnitPriceMicroLamports := some 1000
    prioritizationFeeLamports := some 1000
    asLegacyTransaction := false
    useTokenLedger := false
    destinationTokenAccount := none }

/-- From `jupiter.rs` lines 271-315, `get_swap_transaction`: POST the quote
byte-for-byte plus the fixed options; a reported `simulation_error` becomes
`TransactionFailed ("Simulation failed: " ++ reason)`. -/
def get_swap_transaction (w : World) (quote : QuoteResponse)
    (userPubkey : Address) : Except AppError SwapResponse × List Event :=
  let request := buildSwapRequest quote userPubkey
  match w.swapApi request with
  | .transportError e => (.error (.other e), [.buildReq request])
  | .badStatus body => (.error (.sol (.NetworkError body)), [.buildReq request])
  | .ok swapResponse =>
    match swapResponse.simulationError with
    | some err =>
      (.error (.sol (.TransactionFailed ("Simulation failed: " ++ err))),
       [.buildReq request])
    | none => (.ok swapResponse, [.buildReq request])

/-- From `jupiter.rs` lines 146-232, `prepare_swap_transaction`: resolve mints,
pick 9 decimals for SOL else 6, convert the amount, quote, parse the quoted
output and price impact, build the swap, decode the returned versioned
transaction to extract required signers, fetch a fresh blockhash, and return
the aggregator transaction string unchanged with the quote summary. -/
def prepare_swap_transaction (w : World) (cfg : Config)
    (fromSymbol toSymbol : String) (amount : ℚ) (payerPubkey : Address) :
    Except AppError (String × QuoteInfo × List Address × Blockhash) × List Event :=
  match get_token_mint w cfg fromSymbol with
  | .error e => (.error e, [])
  | .ok inputMint =>
  match get_token_mint w cfg toSymbol with
  | .error e => (.error e, [])
  | .ok outputMint =>
  let decimals : ℕ := if toUpperString fromSymbol = "SOL" then 9 else 6
  let amountUnits := to_base_units amount decimals
  let quoteRes := get_quote w cfg inputMint outputMint amountUnits
  match quoteRes.1 with
  | .error e => (.error e, quoteRes.2)
  | .ok quote =>
  match parseU64 quote.outAmount with
  | none => (.error (.other "invalid digit found in string"), quoteRes.2)
  | some outUnits =>
  let outAmountF64 :=
    from_base_units outUnits (if toUpperString toSymbol = "SOL" then 9 else 6)
  match w.parseF64 quote.priceImpactPct with
  | none => (.error (.other "invalid float literal"), quoteRes.2)
  | some priceImpact =>
  let buildRes := get_swap_transaction w quote payerPubkey
  match buildRes.1 with
  | .error e => (.error e, quoteRes.2 ++ buildRes.2)
  | .ok swapResponse =>
  match w.base64Decode swapResponse.swapTransaction with
  | .error e =>
      (.error e, quoteRes.2 ++ buildRes.2 ++ [.decodeB64 swapResponse.swapTransaction])
  | .ok txBytes =>
  match w.deserializeVersioned txBytes with
  | .error e =>
      (.error e, quoteRes.2 ++ buildRes.2 ++ [.decodeB64 swapResponse.swapTransaction])
  | .ok versionedTx =>
  let requiredSigners := extract_required_signers versionedTx.message
  match w.latestBlockhash with
  | .error e =>
      (.error e,
       quoteRes.2 ++ buildRes.2 ++
         [.decodeB64 swapResponse.swapTransaction, .latestBlockhashReq])
  | .ok recentBlockhash =>
  let quoteInfo : QuoteInfo :=
    { expectedOutput := outAmountF64, priceImpact := priceImpact, routeSteps := 1 }
  (.ok (swapResponse.swapTransaction, quoteInfo, requiredSigners, recentBlockhash),
   quoteRes.2 ++ buildRes.2 ++
     [.decodeB64 swapResponse.swapTransaction, .latestBlockhashReq])

/-- From `jupiter.rs` lines 317-399, `swap_tokens`: the local-signing path; the
identical mint/decimal/quote/build sequence, then bs58-decode the aggregator
transaction as a Legacy transaction, sign it locally and submit it. -/
def swap_tokens (w : World) (cfg : Config) (fromSymbol toSymbol : String)
    (amount : ℚ) : Except AppError Unit × List Event :=
  match w.keypairPubkey with
  | .error e => (.error e, [])
  | .ok keypairPubkey =>
  match get_token_mint w cfg fromSymbol with
  | .error e => (.error e, [])
  | .ok inputMint =>
  match get_token_mint w cfg toSymbol with
  | .error e => (.error e, [])
  | .ok outputMint =>
  let decimals : ℕ := if toUpperString fromSymbol = "SOL" then 9 else 6
  let amountUnits := to_base_units amount decimals
  let quoteRes := get_quote w cfg inputMint outputMint amountUnits
  match quoteRes.1 with
  | .error e => (.error e, quoteRes.2)
  | .ok quote =>
  match parseU64 quote.outAmount with
  | none => (.error (.other "invalid digit found in string"), quoteRes.2)
  | some outUnits =>
  let _outAmountF64 :=
    from_base_units outUnits (if toUpperString toSymbol = "SOL" then 9 else 6)
  match w.parseF64 quote.priceImpactPct with
  | none => (.error (.other "invalid float literal"), quoteRes.2)
  | some _priceImpact =>
  let buildRes := get_swap_transaction w quote keypairPubkey
  match buildRes.1 with
  | .error e => (.error e, quoteRes.2 ++ buildRes.2)
  | .ok swapResponse =>
  match w.base58Decode swapResponse.swapTransaction with
  | .error e =>
      (.error e, quoteRes.2 ++ buildRes.2 ++ [.decodeB58 swapResponse.swapTransaction])
  | .ok txBytes =>
  match w.deserializeLegacy txBytes with
  | .error e =>
      (.error e, quoteRes.2 ++ buildRes.2 ++ [.decodeB58 swapResponse.swapTransaction])
  | .ok transaction =>
  let signed :=
    Transaction.signWith w.sign transaction keypairPubkey
      transaction.message.recentBlockhash
  match w.sendLegacy signed with
  | .ok _signature =>
      (.ok (),
       quoteRes.2 ++ buildRes.2 ++
         [.decodeB58 swapResponse.swapTransaction, .submitLegacy signed])
  | .error e =>
      (.error (.sol (.TransactionFailed ("Swap failed: " ++ e))),
       quoteRes.2 ++ buildRes.2 ++
         [.decodeB58 swapResponse.swapTransaction, .submitLegacy signed])

/-- From `jupiter.rs` lines 401-479, `swap_tokens_with_keypair`: as `swap_tokens`
but with an optional caller-supplied keypair, base64/versioned decoding, and
versioned re-signing via `VersionedTransaction::try_new`. -/
def swap_tokens_with_keypair (w : World) (cfg : Config)
    (fromSymbol toSymbol : String) (amount : ℚ) (keypair : Option Address) :
    Except AppError String × List Event :=
  match (match keypair with | some k => .ok k | none => w.keypairPubkey :
          Except AppError Address) with
  | .error e => (.error e, [])
  | .ok kp =>
  match get_token_mint w cfg fromSymbol with
  | .error e => (.error e, [])
  | .ok inputMint =>
  match get_token_mint w cfg toSymbol with
  | .error e => (.error e, [])
  | .ok outputMint =>
  let decimals : ℕ := if toUpperString fromSymbol = "SOL" then 9 else 6
  let amountUnits := to_base_units amount decimals
  let quoteRes := get_quote w cfg inputMint outputMint amountUnits
  match quoteRes.1 with
  | .error e => (.error e, quoteRes.2)
  | .ok quote =>
  match parseU64 quote.outAmount with
  | none => (.error (.other "invalid digit found in string"), quoteRes.2)
  | some outUnits =>
  let _outAmountF64 :=
    from_base_units outUnits (if toUpperString toSymbol = "SOL" then 9 else 6)
  match w.parseF64 quote.priceImpactPct with
  | none => (.error (.other "invalid float literal"), quoteRes.2)
  | some _priceImpact =>
  let buildRes := get_swap_transaction w quote kp
  match buildRes.1 with
  | .error e => (.error e, quoteRes.2 ++ buildRes.2)
  | .ok swapResponse =>
  match w.base64Decode swapResponse.swapTransaction with
  | .error e =>
      (.error e, quoteRes.2 ++ buildRes.2 ++ [.decodeB64 swapResponse.swapTransaction])
  | .ok txBytes =>
  match w.deserializeVersioned txBytes with
  | .error e =>
      (.error e, quoteRes.2 ++ buildRes.2 ++ [.decodeB64 swapResponse.swapTransaction])
  | .ok versionedTx =>
  match w.trySignVersioned versionedTx.message kp with
  | .error e =>
      (.error e, quoteRes.2 ++ buildRes.2 ++ [.decodeB64 swapResponse.swapTransaction])
  | .ok signedTx =>
  match w.sendVersioned signedTx with
  | .ok signature =>
      (.ok signature,
       quoteRes.2 ++ buildRes.2 ++
         [.decodeB64 swapResponse.swapTransaction, .submitVersioned signedTx])
  | .error e =>
      (.error (.sol (.TransactionFailed ("Swap failed: " ++ e))),
       quoteRes.2 ++ buildRes.2 ++
         [.decodeB64 swapResponse.swapTransaction, .submitVersioned signedTx])

/-! ## History classification (`transaction.rs` lines 416-446) -/

/-- The enum `TransactionType` from `transaction.rs`. -/
inductive TransactionType
  | Transfer
  | TokenTransfer
  | Swap
  | Unknown
deriving DecidableEq

/-- The balance metadata of a fetched transaction detail. -/
structure TxMeta where
  preBalances : List ℕ
  postBalances : List ℕ
deriving DecidableEq

/-- The type `EncodedConfirmedTransactionWithStatusMeta`, restricted to the metadata
the classifier reads. -/
structure EncodedConfirmedTransaction where
  meta : Option TxMeta
deriving DecidableEq

/-- The `for`-loop with `break` inside `analyze_transaction_details`: scan
zipped pre/post balances, stop at the first pair whose `i64` difference has
absolute value above 1,000,000 lamports. -/
def find_balance_change : List (ℕ × ℕ) → Option ℚ × Option String × TransactionType
  | [] => (none, none, .Unknown)
  | p :: rest =>
    let diff := wrapI64 (u64ToI64 p.2 - u64ToI64 p.1)
    if 1000000 < i64Abs diff then
      (some (fdiv (roundF ((i64Abs diff : ℤ) : ℚ)) ((LAMPORTS_PER_SOL : ℕ) : ℚ)),
       some "SOL", .Transfer)
    else find_balance_change rest

/-- From `transaction.rs` lines 416-446, `analyze_transaction_details`. -/
def analyze_transaction_details (tx : EncodedConfirmedTransaction) :
    Option ℚ × Option String × TransactionType :=
  match tx.meta with
  | none => (none, none, .Unknown)
  | some meta => find_balance_change (meta.preBalances.zip meta.postBalances)

/-! ## Concrete collaborators used for instance checks -/

def baseConfig : Config :=
  { rpcUrl := "http://localhost:8899", tokensSol := "SOLMINT",
    tokensUsdc := "USDCMINT", slippageBps := 50, jupiterApiUrl := "http://jupiter" }

def baseQuote : QuoteResponse :=
  { inputMint := "SOLMINT", inAmount := "1000000000", outputMint := "USDCMINT",
    outAmount := "1000", otherAmountThreshold := "0", swapMode := "ExactIn",
    slippageBps := 50, platformFee := none, priceImpactPct := "0", routePlan := [] }

def baseSwapResponse : SwapResponse :=
  { swapTransaction := "AGGTX", lastValidBlockHeight := 100,
    prioritizationFeeLamports := some 1000, computeUnitLimit := none,
    dynamicSlippageReport := none, simulationError := none }

def baseVersionedTx : VersionedTransaction :=
  { signatures := [],
    message := .v0 { header := { numRequiredSignatures := 1,
                                 numReadonlySignedAccounts := 0,
                                 numReadonlyUnsignedAccounts := 1 },
                     accountKeys := ["PAYER", "PROG"],
                     recentBlockhash := "AGGHASH" } }

def baseLegacyTx : Transaction :=
  { signatures := [],
    message := { header := { numRequiredSignatures := 1,
                             numReadonlySignedAccounts := 0,
                             numReadonlyUnsignedAccounts := 1 },
                 accountKeys := ["PAYER", "DEST"],
                 recentBlockhash := "LEGHASH", instructions := [] } }

def baseWorld : World :=
  { keypairPubkey := .ok "PAYER"
    validPubkey := fun _ => true
    getBalance := .ok 2
    getBalanceFor := fun _ => .ok 2
    latestBlockhash := .ok "BLOCKHASH"
    quoteApi := fun _ => .ok baseQuote
    swapApi := fun _ => .ok baseSwapResponse
    parseF64 := fun _ => some 0
    base64Decode := fun _ => .ok [0]
    base58Decode := fun _ => .ok [1]
    deserializeLegacy := fun _ => .ok baseLegacyTx
    deserializeVersioned := fun _ => .ok baseVersionedTx
    sign := fun _ _ => "SIG"
    trySignVersioned := fun m _ => .ok { signatures := ["SIG"], message := m }
    sendLegacy := fun _ => .ok "TXSIG"
    sendVersioned := fun _ => .ok "TXSIG" }

def submitFailWorld : World :=
  { baseWorld with
    deserializeLegacy := fun _ => .error (.other "legacy decode failed")
    deserializeVersioned := fun _ => .error (.other "versioned decode failed") }

def simulationFailWorld : World :=
  { baseWorld with
    swapApi := fun _ =>
      .ok { baseSwapResponse with simulationError := some "slippage tolerance exceeded" } }

/-- The quote/build requests a run of the shared quote-then-build stage
issues, as a function of the collaborators' responses: used to state that
the local-signing and the remote-signer pipelines negotiate identically.
It mirrors the shared stage: resolve both mints, pick the decimals, convert
the amount, request the quote, parse its output and price impact, and
request the build. -/
def negotiation_trace (w : World) (cfg : Config) (fromSymbol toSymbol : String)
    (amount : ℚ) (user : Address) : List Event :=
  match get_token_mint w cfg fromSymbol with
  | .error _ => []
  | .ok inputMint =>
  match get_token_mint w cfg toSymbol with
  | .error _ => []
  | .ok outputMint =>
  let quoteRes := get_quote w cfg inputMint outputMint
    (to_base_units amount (if toUpperString fromSymbol = "SOL" then 9 else 6))
  match quoteRes.1 with
  | .error _ => quoteRes.2
  | .ok quote =>
  match parseU64 quote.outAmount with
  | none => quoteRes.2
  | some _ =>
  match w.parseF64 quote.priceImpactPct with
  | none => quoteRes.2
  | some _ => quoteRes.2 ++ (get_swap_transaction w quote user).2

/-! ## Properties of the float model -/

theorem log2f_le (fuel : ℕ) : ∀ n : ℕ, 1 ≤ n → n ≤ fuel → 2 ^ log2f fuel n ≤ n := by
  induction fuel with
  | zero => intro n h1 h2; omega
  | succ f ih =>
    intro n h1 h2
    simp only [log2f]
    by_cases h : 2 ≤ n
    · rw [if_pos h, pow_succ]
      have hd : 2 ^ log2f f (n / 2) ≤ n / 2 := ih (n / 2) (by omega) (by omega)
      omega
    · rw [if_neg h, pow_zero]; omega

theorem clog2f_ge (fuel : ℕ) : ∀ n : ℕ, n ≤ fuel → n ≤ 2 ^ clog2f fuel n := by
  induction fuel with
  | zero => intro n h2; simp only [clog2f, pow_zero]; omega
  | succ f ih =>
    intro n h2
    simp only [clog2f]
    by_cases h : 2 ≤ n
    · rw [if_pos h, pow_succ]
      have hd : (n + 1) / 2 ≤ 2 ^ clog2f f ((n + 1) / 2) := ih ((n + 1) / 2) (by omega)
      omega
    · rw [if_neg h, pow_zero]; omega

theorem qlog2_le (q : ℚ) (hq : 0 < q) : (2 : ℚ) ^ qlog2 q ≤ q := by
  unfold qlog2
  by_cases h1 : 1 ≤ q
  · rw [if_pos h1, zpow_natCast]
    have hfl : (1 : ℤ) ≤ ⌊q⌋ := Int.le_floor.mpr (by exact_mod_cast h1)
    have hle : 2 ^ natLog2 ⌊q⌋.toNat ≤ ⌊q⌋.toNat :=
      log2f_le _ _ (by omega) le_rfl
    have hcast : ((⌊q⌋.toNat : ℕ) : ℚ) ≤ q := by
      rw [show ((⌊q⌋.toNat : ℕ) : ℚ) = ((⌊q⌋.toNat : ℤ) : ℚ) by push_cast; ring,
        Int.toNat_of_nonneg (by omega)]
      exact Int.floor_le q
    calc (2 : ℚ) ^ natLog2 ⌊q⌋.toNat = ((2 ^ natLog2 ⌊q⌋.toNat : ℕ) : ℚ) := by
          push_cast; ring
    _ ≤ ((⌊q⌋.toNat : ℕ) : ℚ) := by exact_mod_cast hle
    _ ≤ q := hcast
  · rw [if_neg h1, zpow_neg, zpow_natCast]
    have hq1 : q ≤ 1 := le_of_not_le h1
    have hinv : 1 ≤ q⁻¹ := (one_le_inv_iff₀.mpr ⟨hq, hq1⟩)
    have hceilnn : (0 : ℤ) ≤ ⌈q⁻¹⌉ := Int.ceil_nonneg (by linarith)
    have hceil : q⁻¹ ≤ ((⌈q⁻¹⌉.toNat : ℕ) : ℚ) := by
      rw [show ((⌈q⁻¹⌉.toNat : ℕ) : ℚ) = ((⌈q⁻¹⌉.toNat : ℤ) : ℚ) by push_cast; ring,
        Int.toNat_of_nonneg hceilnn]
      exact Int.le_ceil _
    have hK : (⌈q⁻¹⌉.toNat : ℕ) ≤ 2 ^ natClog2 ⌈q⁻¹⌉.toNat := clog2f_ge _ _ le_rfl
    have hchain : q⁻¹ ≤ (2 : ℚ) ^ natClog2 ⌈q⁻¹⌉.toNat := by
      calc q⁻¹ ≤ ((⌈q⁻¹⌉.toNat : ℕ) : ℚ) := hceil
      _ ≤ ((2 ^ natClog2 ⌈q⁻¹⌉.toNat : ℕ) : ℚ) := by exact_mod_cast hK
      _ = (2 : ℚ) ^ natClog2 ⌈q⁻¹⌉.toNat := by push_cast; ring
    have hpow : (0 : ℚ) < (2 : ℚ) ^ natClog2 ⌈q⁻¹⌉.toNat := by positivity
    rw [inv_le_comm₀ hpow hq]
    exact hchain

theorem rnEven_nonneg (x : ℚ) (hx : 0 ≤ x) : 0 ≤ rnEven x := by
  unfold rnEven
  have hfl : (0 : ℤ) ≤ ⌊x⌋ := Int.floor_nonneg.mpr hx
  split_ifs <;> omega

theorem rnEven_natCast (k : ℕ) : rnEven ((k : ℕ) : ℚ) = k := by
  unfold rnEven
  rw [Int.floor_natCast]
  norm_num

theorem roundPos_nonneg (a : ℚ) (ha : 0 ≤ a) : 0 ≤ roundPos a := by
  unfold roundPos
  have hm : (0 : ℤ) ≤ rnEven (a * 2 ^ (-(qlog2 a - 52))) :=
    rnEven_nonneg _ (by positivity)
  have h2 : (0 : ℚ) < 2 ^ (qlog2 a - 52) := by positivity
  have : (0 : ℚ) ≤ (rnEven (a * 2 ^ (-(qlog2 a - 52))) : ℚ) := by exact_mod_cast hm
  positivity

theorem roundF_nonneg (q : ℚ) (hq : 0 ≤ q) : 0 ≤ roundF q := by
  unfold roundF
  by_cases h0 : q = 0
  · simp [h0]
  · rw [if_neg h0, if_neg (not_lt.mpr hq)]
    exact roundPos_nonneg q hq

theorem roundF_nonpos (q : ℚ) (hq : q ≤ 0) : roundF q ≤ 0 := by
  unfold roundF
  by_cases h0 : q = 0
  · simp [h0]
  · have hlt : q < 0 := lt_of_le_of_ne hq h0
    rw [if_neg h0, if_pos hlt, neg_nonpos]
    exact roundPos_nonneg (-q) (by linarith)

theorem roundPos_eq_self (m : ℕ) (e : ℤ) (hm : 0 < m) (hub : m < 2 ^ 53) :
    roundPos ((m : ℚ) * 2 ^ e) = (m : ℚ) * 2 ^ e := by
  have hq : (0 : ℚ) < (m : ℚ) * 2 ^ e := by positivity
  have hL : (2 : ℚ) ^ qlog2 ((m : ℚ) * 2 ^ e) ≤ (m : ℚ) * 2 ^ e := qlog2_le _ hq
  have hub2 : (m : ℚ) * 2 ^ e < 2 ^ (e + 53) := by
    rw [zpow_add₀ (two_ne_zero) e 53]
    have hmq : (m : ℚ) < 2 ^ (53 : ℤ) := by
      rw [show ((2 : ℚ) ^ (53 : ℤ)) = ((2 ^ 53 : ℕ) : ℚ) by push_cast; ring]
      exact_mod_cast hub
    have h2e : (0 : ℚ) < 2 ^ e := by positivity
    calc (m : ℚ) * 2 ^ e < 2 ^ (53 : ℤ) * 2 ^ e := by
          exact mul_lt_mul_of_pos_right hmq h2e
    _ = 2 ^ e * 2 ^ (53 : ℤ) := by ring
  have hLe : qlog2 ((m : ℚ) * 2 ^ e) ≤ e + 52 := by
    by_contra hcon
    push_neg at hcon
    have hmono : (2 : ℚ) ^ (e + 53) ≤ 2 ^ qlog2 ((m : ℚ) * 2 ^ e) :=
      zpow_le_zpow_right₀ one_le_two (by omega)
    linarith
  set e0 : ℤ := qlog2 ((m : ℚ) * 2 ^ e) - 52 with he0
  have hee : 0 ≤ e - e0 := by omega
  have hscaled : (m : ℚ) * 2 ^ e * 2 ^ (-e0) = ((m * 2 ^ (e - e0).toNat : ℕ) : ℚ) := by
    push_cast
    rw [← zpow_natCast (2 : ℚ) (e - e0).toNat, Int.toNat_of_nonneg hee,
      mul_assoc, ← zpow_add₀ (two_ne_zero) e (-e0)]
    ring_nf
  unfold roundPos
  rw [← he0, hscaled, rnEven_natCast]
  push_cast
  rw [← zpow_natCast (2 : ℚ) (e - e0).toNat, Int.toNat_of_nonneg hee,
    mul_assoc, ← zpow_add₀ (two_ne_zero)]
  ring_nf

theorem roundF_natCast (n : ℕ) (h53 : n < 2 ^ 53) : roundF ((n : ℕ) : ℚ) = n := by
  rcases Nat.eq_zero_or_pos n with h0 | hpos
  · subst h0; simp [roundF]
  · have hq : (0 : ℚ) < (n : ℚ) := by exact_mod_cast hpos
    unfold roundF
    rw [if_neg (by positivity), if_neg (not_lt.mpr hq.le)]
    have := roundPos_eq_self n 0 hpos h53
    simpa using this

theorem roundF_eq_self (m : ℕ) (e : ℤ) (hm : 0 < m) (h53 : m < 2 ^ 53) :
    roundF ((m : ℚ) * 2 ^ e) = (m : ℚ) * 2 ^ e := by
  have hq : (0 : ℚ) < (m : ℚ) * 2 ^ e := by positivity
  unfold roundF
  rw [if_neg (ne_of_gt hq), if_neg (not_lt.mpr hq.le)]
  exact roundPos_eq_self m e hm h53

theorem f64ToU64_le (q : ℚ) (hq : 0 ≤ q) : (f64ToU64 q : ℚ) ≤ q := by
  unfold f64ToU64
  have h1 : min ⌊q⌋.toNat (2 ^ 64 - 1) ≤ ⌊q⌋.toNat := min_le_left _ _
  have h2 : ((⌊q⌋.toNat : ℕ) : ℚ) ≤ q := by
    rw [show ((⌊q⌋.toNat : ℕ) : ℚ) = ((⌊q⌋.toNat : ℤ) : ℚ) by push_cast; ring,
      Int.toNat_of_nonneg (Int.floor_nonneg.mpr hq)]
    exact Int.floor_le q
  calc ((min ⌊q⌋.toNat (2 ^ 64 - 1) : ℕ) : ℚ) ≤ ((⌊q⌋.toNat : ℕ) : ℚ) := by
        exact_mod_cast h1
  _ ≤ q := h2

theorem f64ToU64_natCast (n : ℕ) (h53 : n < 2 ^ 53) : f64ToU64 ((n : ℕ) : ℚ) = n := by
  unfold f64ToU64
  rw [Int.floor_natCast, Int.toNat_natCast]
  have : n ≤ 2 ^ 64 - 1 := by omega
  omega

theorem f64ToU64_of_nonpos (q : ℚ) (hq : q ≤ 0) : f64ToU64 q = 0 := by
  unfold f64ToU64
  have hfl : ⌊q⌋ ≤ 0 := by
    calc ⌊q⌋ ≤ ⌊(0 : ℚ)⌋ := Int.floor_le_floor hq
    _ = 0 := by norm_num
  omega

theorem to_base_units_of_neg (a : ℚ) (d : ℕ) (ha : a < 0) : to_base_units a d = 0 := by
  unfold to_base_units fmul
  apply f64ToU64_of_nonpos
  apply roundF_nonpos
  have : (0 : ℚ) < 10 ^ d := by positivity
  nlinarith

/-! ## Claim C1 -/

/-- Claim C1 counterexample: the claim fails on the code.  For the `f64`
value nearest to 0.3 (which has 54 fractional digits, more than the 6 that
`d = 6` allows), the float multiplication `amount * 10_f64.powi(6)` rounds
its exact product 299999.99999999998… up to 300000.0, so the base-unit
result 300000 strictly exceeds `a * 10^6`. -/
theorem to_base_units_rounds_up_cex :
    to_base_units (5404319552844595 / 18014398509481984) 6 = 300000 ∧
    (5404319552844595 / 18014398509481984 : ℚ) * 10 ^ 6 < 300000 ∧
    ((5404319552844595 / 18014398509481984 : ℚ) * 10 ^ 6).den ≠ 1 := by
  refine ⟨by with_unfolding_all rfl, ?_, ?_⟩
  · exact of_decide_eq_true (by with_unfolding_all rfl)
  · exact of_decide_eq_true (by with_unfolding_all rfl)

/-- Claim C1 (amended): for every non-negative amount the saturating `as
u64` cast truncates toward zero relative to the floating-point product, so
the base-unit result never exceeds the rounded `f64` product
`fmul a (10 ^ d)`; because that multiplication rounds to nearest it can
round up past an integer, and the result may then exceed the exact
`a * 10 ^ d` by one unit. -/
theorem to_base_units_le_float_product (a : ℚ) (ha : 0 ≤ a) (d : ℕ) :
    (to_base_units a d : ℚ) ≤ fmul a (10 ^ d) := by
  unfold to_base_units
  apply f64ToU64_le
  unfold fmul
  apply roundF_nonneg
  positivity

/-- Concrete instance of `to_base_units_le_float_product` at `a = 1/2`,
`d = 6`. -/
theorem to_base_units_le_float_product_witness :
    (0 : ℚ) ≤ 1 / 2 ∧ (to_base_units (1 / 2) 6 : ℚ) ≤ fmul (1 / 2) (10 ^ 6) :=
  ⟨by norm_num, to_base_units_le_float_product (1 / 2) (by norm_num) 6⟩

/-! ## Claim C2 -/

/-- Claim C2 counterexample: the claim fails on the code.  Converting
`n = 15` base units at the native precision `d = 9` to the `f64` amount
`15 / 10^9` and back multiplies with a rounding that lands just below 15
(14.999999999999998…), and the truncating `as u64` cast returns 14, not
15. -/
theorem base_units_roundtrip_cex :
    to_base_units (from_base_units 15 9) 9 = 14 ∧ (14 : ℕ) ≠ 15 :=
  ⟨by with_unfolding_all rfl, by decide⟩

/-- Claim C2 (amended): the base-unit round trip
`to_base_units (from_base_units n d) d = n` holds exactly for every `n`
below `2^53` that is divisible by `5^d` — the amounts whose `f64`
representation and division by `10^d` are exact; for other `n` the two
roundings and the truncating cast can lose one unit (e.g. `n = 15`,
`d = 9` yields 14). -/
theorem base_units_roundtrip_exact (n d : ℕ) (h53 : n < 2 ^ 53)
    (hdvd : 5 ^ d ∣ n) : to_base_units (from_base_units n d) d = n := by
  rcases Nat.eq_zero_or_pos n with h0 | hpos
  · subst h0
    simp [from_base_units, to_base_units, fdiv, fmul, roundF, f64ToU64]
  · obtain ⟨k, hk⟩ := hdvd
    have hkpos : 0 < k := by
      rcases Nat.eq_zero_or_pos k with h | h
      · subst h; omega
      · exact h
    have h5 : 1 ≤ 5 ^ d := Nat.one_le_pow _ _ (by norm_num)
    have hk53 : k < 2 ^ 53 := by
      have hle : k ≤ 5 ^ d * k := Nat.le_mul_of_pos_left k (by omega)
      omega
    have h10 : ((10 : ℚ)) ^ d = 5 ^ d * 2 ^ d := by
      rw [← mul_pow]; norm_num
    have hstep1 : roundF ((n : ℕ) : ℚ) = n := roundF_natCast n h53
    have hquot : ((n : ℕ) : ℚ) / 10 ^ d = (k : ℚ) * 2 ^ (-(d : ℤ)) := by
      rw [hk]; push_cast
      rw [h10, zpow_neg, zpow_natCast]
      have h2d : ((2 : ℚ)) ^ d ≠ 0 := by positivity
      have h5d : ((5 : ℚ)) ^ d ≠ 0 := by positivity
      field_simp
      ring
    have hstep2 : from_base_units n d = (k : ℚ) * 2 ^ (-(d : ℤ)) := by
      unfold from_base_units fdiv
      rw [hstep1, hquot]
      exact roundF_eq_self k (-(d : ℤ)) hkpos hk53
    have hprod : ((k : ℚ) * 2 ^ (-(d : ℤ))) * 10 ^ d = ((n : ℕ) : ℚ) := by
      rw [hk]; push_cast
      rw [h10, zpow_neg, zpow_natCast]
      have h2d : ((2 : ℚ)) ^ d ≠ 0 := by positivity
      field_simp
      ring
    unfold to_base_units fmul
    rw [hstep2, hprod, hstep1]
    exact f64ToU64_natCast n h53

/-- Concrete instance of `base_units_roundtrip_exact` at `n = 1953125 =
5^9`, `d = 9`. -/
theorem base_units_roundtrip_exact_witness :
    1953125 < 2 ^ 53 ∧ 5 ^ 9 ∣ 1953125 ∧
    to_base_units (from_base_units 1953125 9) 9 = 1953125 :=
  ⟨by norm_num, by norm_num, base_units_roundtrip_exact 1953125 9 (by norm_num) (by norm_num)⟩

/-! ## Claim C3 -/

/-- Claim C3: with a syntactically valid recipient, both transfer builders
fail with `InsufficientBalance` carrying the freshly queried balance and the
requested amount exactly when that balance is strictly below the amount, and
otherwise proceed past the balance check, returning a package when the
remaining step (blockhash fetch) succeeds.  `create_transaction` checks the
held keypair's balance, `prepare_sol_transfer` the supplied payer's. -/
theorem balance_check_gates_transfer (w : World) (payer toAddress : String)
    (amount balance : ℚ)
    (hkp : w.keypairPubkey = .ok payer)
    (hvalid : w.validPubkey toAddress = true)
    (hbal : w.getBalance = .ok balance)
    (hbalFor : w.getBalanceFor payer = .ok balance) :
    (balance < amount →
      create_transaction w toAddress amount =
        .error (.sol (.InsufficientBalance balance amount)) ∧
      prepare_sol_transfer w payer toAddress amount =
        .error (.sol (.InsufficientBalance balance amount))) ∧
    (amount ≤ balance → ∀ bh, w.latestBlockhash = .ok bh →
      (∃ t, create_transaction w toAddress amount = .ok t) ∧
      (∃ p, prepare_sol_transfer w payer toAddress amount = .ok p)) := by
  constructor
  · intro hlt
    constructor
    · unfold create_transaction
      simp only [hkp, hvalid, hbal, if_true, if_pos hlt]
    · unfold prepare_sol_transfer
      simp only [hvalid, hbalFor, if_true, if_pos hlt]
  · intro hle bh hbh
    have hnotlt : ¬ balance < amount := not_lt.mpr hle
    constructor
    · unfold create_transaction
      simp only [hkp, hvalid, hbal, if_true, if_neg hnotlt, hbh]
      exact ⟨_, rfl⟩
    · unfold prepare_sol_transfer
      simp only [hvalid, hbalFor, if_true, if_neg hnotlt, hbh]
      exact ⟨_, rfl⟩

/-- Concrete instance of `balance_check_gates_transfer`: balance 0.5,
requested amount 1.0 fails with `InsufficientBalance` carrying 0.5 and
1.0. -/
theorem balance_check_gates_transfer_witness :
    create_transaction
      { baseWorld with getBalance := .ok (1 / 2),
                       getBalanceFor := fun _ => .ok (1 / 2) } "DEST" 1 =
      .error (.sol (.InsufficientBalance (1 / 2) 1)) :=
  ((balance_check_gates_transfer _ "PAYER" "DEST" 1 (1 / 2)
      rfl rfl rfl rfl).1 (by norm_num)).1

/-! ## Claim C4 -/

theorem get?_take_of_lt {α : Type} (l : List α) :
    ∀ n i : ℕ, i < n → (l.take n).get? i = l.get? i := by
  induction l with
  | nil => intro n i h; simp
  | cons a t ih =>
    intro n i h
    cases n with
    | zero => omega
    | succ n =>
      cases i with
      | zero => simp
      | succ i =>
        simp only [List.take, List.get?]
        exact ih n i (by omega)

/-- Claim C4: for either message shape, the extracted required signers are
exactly the first `num_required_signatures` account keys of that message's
own key list, in order. -/
theorem extract_required_signers_spec (msg : VersionedMessage) :
    extract_required_signers msg =
      msg.accountKeysList.take msg.numRequiredSignatures ∧
    (msg.numRequiredSignatures ≤ msg.accountKeysList.length →
      (extract_required_signers msg).length = msg.numRequiredSignatures) ∧
    (∀ i, i < msg.numRequiredSignatures →
      (extract_required_signers msg).get? i = msg.accountKeysList.get? i) := by
  cases msg with
  | legacy m =>
    refine ⟨rfl, fun h => ?_, fun i hi => ?_⟩
    · simp only [extract_required_signers, List.length_take]
      exact Nat.min_eq_left h
    · exact get?_take_of_lt _ _ _ hi
  | v0 m =>
    refine ⟨rfl, fun h => ?_, fun i hi => ?_⟩
    · simp only [extract_required_signers, List.length_take]
      exact Nat.min_eq_left h
    · exact get?_take_of_lt _ _ _ hi

/-- Concrete instance of `extract_required_signers_spec`: a legacy message
declaring 2 required signatures over 3 keys yields a signer list of length
2. -/
theorem extract_required_signers_spec_witness :
    (extract_required_signers (.legacy
      { header := { numRequiredSignatures := 2, numReadonlySignedAccounts := 0,
                    numReadonlyUnsignedAccounts := 0 },
        accountKeys := ["a", "b", "c"], recentBlockhash := "h",
        instructions := [] })).length = 2 :=
  (extract_required_signers_spec _).2.1 (by decide)

/-! ## Claim C5 -/

/-- Claim C5: submission decodes the signed bytes as a Legacy transaction
first; the Versioned shape is consulted only when Legacy deserialization
fails, and when both fail the submission returns the malformed-transaction
error with no send ever reaching the node. -/
theorem submit_tries_legacy_then_versioned (w : World) (s : String) (b : Bytes)
    (h64 : w.base64Decode s = .ok b) :
    (∀ t, w.deserializeLegacy b = .ok t →
      (submit_signed_transaction w s).2 = [.submitLegacy t]) ∧
    (∀ e v, w.deserializeLegacy b = .error e → w.deserializeVersioned b = .ok v →
      (submit_signed_transaction w s).2 = [.submitVersioned v]) ∧
    (∀ e e2, w.deserializeLegacy b = .error e → w.deserializeVersioned b = .error e2 →
      (submit_signed_transaction w s).1 =
        .error (.sol (.TransactionFailed "Invalid transaction format")) ∧
      (submit_signed_transaction w s).2 = []) := by
  refine ⟨fun t ht => ?_, fun e v he hv => ?_, fun e e2 he he2 => ?_⟩
  · unfold submit_signed_transaction
    simp only [h64, ht]
    cases hs : w.sendLegacy t <;> simp
  · unfold submit_signed_transaction
    simp only [h64, he, hv]
    cases hs : w.sendVersioned v <;> simp
  · unfold submit_signed_transaction
    simp [h64, he, he2]

/-- Concrete instance of `submit_tries_legacy_then_versioned`: bytes that
satisfy neither shape produce the malformed-transaction failure and an
empty send trace. -/
theorem submit_tries_legacy_then_versioned_witness :
    (submit_signed_transaction submitFailWorld "SIGNEDTX").1 =
      .error (.sol (.TransactionFailed "Invalid transaction format")) ∧
    (submit_signed_transaction submitFailWorld "SIGNEDTX").2 = [] :=
  (submit_tries_legacy_then_versioned submitFailWorld "SIGNEDTX" [0] rfl).2.2
    (.other "legacy decode failed") (.other "versioned decode failed") rfl rfl

/-! ## Claim C10 -/

/-- Claim C10: for a strictly negative requested amount and a valid
recipient, any non-negative queried balance passes the insufficient-balance
check (`balance < amount` is false), and the saturating float-to-u64 cast of
the negative product yields 0 lamports, so both transfer builders succeed
and build a transaction that transfers 0 base units instead of returning an
error. -/
theorem negative_amount_builds_zero_transfer (w : World) (payer toAddress : String)
    (amount balance : ℚ) (bh : Blockhash)
    (hkp : w.keypairPubkey = .ok payer)
    (hvalid : w.validPubkey toAddress = true)
    (hbal : w.getBalance = .ok balance)
    (hbalFor : w.getBalanceFor payer = .ok balance)
    (hbh : w.latestBlockhash = .ok bh)
    (hneg : amount < 0) (hnn : 0 ≤ balance) :
    (∃ t, create_transaction w toAddress amount = .ok t ∧
      t.message.instructions =
        [{ source := payer, destination := toAddress, lamports := 0 }]) ∧
    (∃ t sigs bh2, prepare_sol_transfer w payer toAddress amount = .ok (t, sigs, bh2) ∧
      t.message.instructions =
        [{ source := payer, destination := toAddress, lamports := 0 }]) := by
  have hnotlt : ¬ balance < amount := not_lt.mpr (le_of_lt (lt_of_lt_of_le hneg hnn))
  have hzero : to_base_units amount 9 = 0 := to_base_units_of_neg amount 9 hneg
  constructor
  · unfold create_transaction
    simp only [hkp, hvalid, hbal, if_true, if_neg hnotlt, hbh, hzero]
    exact ⟨_, rfl, rfl⟩
  · unfold prepare_sol_transfer
    simp only [hvalid, hbalFor, if_true, if_neg hnotlt, hbh, hzero]
    exact ⟨_, _, _, rfl, rfl⟩

/-- Concrete instance of `negative_amount_builds_zero_transfer` at
amount `-1` against a balance of 2. -/
theorem negative_amount_builds_zero_transfer_witness :
    ∃ t, create_transaction baseWorld "DEST" (-1) = .ok t ∧
      t.message.instructions =
        [{ source := "PAYER", destination := "DEST", lamports := 0 }] :=
  (negative_amount_builds_zero_transfer baseWorld "PAYER" "DEST" (-1) 2 "BLOCKHASH"
    rfl rfl rfl rfl rfl (by norm_num) (by norm_num)).1

/-! ## Claim C6 -/

/-- Claim C6: when the quote step succeeds but the aggregator's build step
reports a simulation failure, `swap_tokens` fails with the
simulation-rejected error carrying the aggregator's reason text, and the run
submits nothing to the network node. -/
theorem swap_stops_on_simulation_failure (w : World) (cfg : Config)
    (fromSymbol toSymbol : String) (amount : ℚ) (kp : Address)
    (quote : QuoteResponse) (resp : SwapResponse) (reason : String)
    (inputMint outputMint : String) (outUnits : ℕ) (impact : ℚ)
    (hkp : w.keypairPubkey = .ok kp)
    (him : get_token_mint w cfg fromSymbol = .ok inputMint)
    (hom : get_token_mint w cfg toSymbol = .ok outputMint)
    (hquote : w.quoteApi
      { inputMint := inputMint, outputMint := outputMint,
        amount := to_base_units amount
          (if toUpperString fromSymbol = "SOL" then 9 else 6),
        slippageBps := cfg.slippageBps } = .ok quote)
    (hout : parseU64 quote.outAmount = some outUnits)
    (himpact : w.parseF64 quote.priceImpactPct = some impact)
    (hbuild : w.swapApi (buildSwapRequest quote kp) = .ok resp)
    (hsim : resp.simulationError = some reason) :
    (swap_tokens w cfg fromSymbol toSymbol amount).1 =
      .error (.sol (.TransactionFailed ("Simulation failed: " ++ reason))) ∧
    ∀ e ∈ (swap_tokens w cfg fromSymbol toSymbol amount).2, e.isSubmit = false := by
  unfold swap_tokens get_quote get_swap_transaction
  simp only [hkp, him, hom, hquote, hout, himpact, hbuild, hsim]
  refine ⟨by trivial, ?_⟩
  intro e he
  simp only [List.mem_append, List.mem_singleton, List.mem_cons,
    List.not_mem_nil, or_false] at he
  rcases he with rfl | rfl <;> rfl

/-- Concrete instance of `swap_stops_on_simulation_failure`: the aggregator
reports a failed simulation; the swap fails with the reason attached and
nothing is submitted. -/
theorem swap_stops_on_simulation_failure_witness :
    (swap_tokens simulationFailWorld baseConfig "SOL" "USDC" 1).1 =
      .error (.sol (.TransactionFailed
        "Simulation failed: slippage tolerance exceeded")) :=
  (swap_stops_on_simulation_failure simulationFailWorld baseConfig "SOL" "USDC" 1
    "PAYER" baseQuote
    { baseSwapResponse with simulationError := some "slippage tolerance exceeded" }
    "slippage tolerance exceeded" "SOLMINT" "USDCMINT" 1000 0
    rfl rfl rfl rfl (by with_unfolding_all rfl) rfl rfl rfl).1

/-! ## Claim C8 -/

theorem find_balance_change_spec (ps : List (ℕ × ℕ))
    (hb : ∀ p ∈ ps, p.1 < 2 ^ 63 ∧ p.2 < 2 ^ 63) :
    find_balance_change ps =
      match ps.find? (fun q => decide (1000000 < ((q.2 : ℤ) - (q.1 : ℤ)).natAbs)) with
      | some p => (some (from_base_units ((p.2 : ℤ) - (p.1 : ℤ)).natAbs 9),
                   some "SOL", TransactionType.Transfer)
      | none => (none, none, TransactionType.Unknown) := by
  induction ps with
  | nil => rfl
  | cons p rest ih =>
    obtain ⟨h1, h2⟩ := hb p (List.mem_cons_self p rest)
    have hdiff : wrapI64 (u64ToI64 p.2 - u64ToI64 p.1) = (p.2 : ℤ) - (p.1 : ℤ) := by
      unfold u64ToI64 wrapI64
      omega
    have habs : i64Abs ((p.2 : ℤ) - (p.1 : ℤ)) = (((p.2 : ℤ) - (p.1 : ℤ)).natAbs : ℤ) := by
      unfold i64Abs wrapI64
      rw [Int.abs_eq_natAbs]
      omega
    by_cases hc : 1000000 < ((p.2 : ℤ) - (p.1 : ℤ)).natAbs
    · rw [List.find?_cons_of_pos _ (by simpa using hc)]
      simp only [find_balance_change]
      rw [hdiff, habs, if_pos (by exact_mod_cast hc)]
      have hLam : (((LAMPORTS_PER_SOL : ℕ) : ℚ)) = 10 ^ 9 := by
        norm_num [LAMPORTS_PER_SOL]
      unfold from_base_units fdiv
      rw [hLam]
      norm_num [Int.cast_natAbs]
    · rw [List.find?_cons_of_neg _ (by simpa using hc)]
      simp only [find_balance_change]
      rw [hdiff, habs, if_neg (by exact_mod_cast hc)]
      exact ih (fun q hq => hb q (List.mem_cons_of_mem p hq))

/-- Claim C8: with balance metadata present (and balances in the `i64`
range, as every real lamport balance is), the classifier scans the zipped
pre/post balances in account order; at the first pair differing by strictly
more than 1,000,000 lamports it returns `Transfer`, the absolute difference
converted to human units, and the symbol `"SOL"`; when no pair exceeds the
threshold it returns `Unknown` with no amount and no symbol. -/
theorem analyze_transaction_details_spec (m : TxMeta)
    (hb : ∀ p ∈ m.preBalances.zip m.postBalances, p.1 < 2 ^ 63 ∧ p.2 < 2 ^ 63) :
    (∀ p, (m.preBalances.zip m.postBalances).find?
        (fun q => decide (1000000 < ((q.2 : ℤ) - (q.1 : ℤ)).natAbs)) = some p →
      analyze_transaction_details { meta := some m } =
        (some (from_base_units ((p.2 : ℤ) - (p.1 : ℤ)).natAbs 9), some "SOL",
         TransactionType.Transfer)) ∧
    ((m.preBalances.zip m.postBalances).find?
        (fun q => decide (1000000 < ((q.2 : ℤ) - (q.1 : ℤ)).natAbs)) = none →
      analyze_transaction_details { meta := some m } =
        (none, none, TransactionType.Unknown)) := by
  have hspec := find_balance_change_spec (m.preBalances.zip m.postBalances) hb
  have hred : analyze_transaction_details { meta := some m } =
      find_balance_change (m.preBalances.zip m.postBalances) := rfl
  constructor
  · intro p hp
    rw [hred, hspec, hp]
  · intro hnone
    rw [hred, hspec, hnone]

/-- Concrete instance of `analyze_transaction_details_spec`: the first
account loses 5 SOL, so the record is classified as a 5-SOL transfer. -/
theorem analyze_transaction_details_spec_witness :
    analyze_transaction_details
      { meta := some { preBalances := [5000000000, 0],
                       postBalances := [0, 4999000000] } } =
      (some (from_base_units 5000000000 9), some "SOL", TransactionType.Transfer) :=
  (analyze_transaction_details_spec _ (by decide)).1 (5000000000, 0)
    (by with_unfolding_all rfl)

/-! ## Claim C9 -/

/-- Claim C9 counterexample: the claim fails on the code for the swap path.
With an aggregator transaction whose embedded recent blockhash is
`"AGGHASH"` and a node whose freshly fetched latest blockhash is
`"BLOCKHASH"`, `prepare_swap_transaction` returns the aggregator bytes
unchanged but reports `"BLOCKHASH"` as the package blockhash, which differs
from the blockhash embedded in the returned transaction bytes. -/
theorem prepare_swap_blockhash_cex :
    (prepare_swap_transaction baseWorld baseConfig "SOL" "USDC" 1 "PAYER").1 =
      .ok ("AGGTX",
           { expectedOutput := from_base_units 1000 6, priceImpact := 0,
             routeSteps := 1 },
           ["PAYER"], "BLOCKHASH") ∧
    baseWorld.base64Decode "AGGTX" = .ok [0] ∧
    baseWorld.deserializeVersioned [0] = .ok baseVersionedTx ∧
    baseVersionedTx.message.recentBlockhash = "AGGHASH" ∧
    "AGGHASH" ≠ "BLOCKHASH" :=
  ⟨by with_unfolding_all rfl, rfl, rfl, rfl, by decide⟩

/-- Claim C9 (amended): `prepare_sol_transfer` reports the blockhash it
embedded: the returned blockhash field always equals the recent blockhash of
the returned wire transaction.  `prepare_swap_transaction`, however, fills
the blockhash field with the freshly fetched latest blockhash and returns
the aggregator's transaction bytes unchanged, so its field need not equal
the blockhash embedded in those bytes. -/
theorem package_blockhash_reporting (w : World) (cfg : Config) :
    (∀ payer toAddr amount t sigs bh,
      prepare_sol_transfer w payer toAddr amount = .ok (t, sigs, bh) →
      t.message.recentBlockhash = bh) ∧
    (∀ fromSymbol toSymbol amount payer pkg,
      (prepare_swap_transaction w cfg fromSymbol toSymbol amount payer).1 = .ok pkg →
      w.latestBlockhash = .ok pkg.2.2.2) := by
  constructor
  · intro payer toAddr amount t sigs bh h
    unfold prepare_sol_transfer at h
    repeat' split at h
    all_goals cases h
    all_goals rfl
  · intro fromSymbol toSymbol amount payer pkg h
    unfold prepare_swap_transaction at h
    cases h1 : get_token_mint w cfg fromSymbol with
    | error e => simp [h1] at h
    | ok im =>
    simp only [h1] at h
    cases h2 : get_token_mint w cfg toSymbol with
    | error e => simp [h2] at h
    | ok om =>
    simp only [h2] at h
    cases h3 : (get_quote w cfg im om (to_base_units amount
        (if toUpperString fromSymbol = "SOL" then 9 else 6))).1 with
    | error e => simp [h3] at h
    | ok quote =>
    simp only [h3] at h
    cases h4 : parseU64 quote.outAmount with
    | none => simp [h4] at h
    | some outUnits =>
    simp only [h4] at h
    cases h5 : w.parseF64 quote.priceImpactPct with
    | none => simp [h5] at h
    | some impact =>
    simp only [h5] at h
    cases h6 : (get_swap_transaction w quote payer).1 with
    | error e => simp [h6] at h
    | ok resp =>
    simp only [h6] at h
    cases h7 : w.base64Decode resp.swapTransaction with
    | error e => simp [h7] at h
    | ok txBytes =>
    simp only [h7] at h
    cases h8 : w.deserializeVersioned txBytes with
    | error e => simp [h8] at h
    | ok versionedTx =>
    simp only [h8] at h
    cases h9 : w.latestBlockhash with
    | error e => simp [h9] at h
    | ok recentBlockhash =>
    simp only [h9] at h
    simp only [Except.ok.injEq] at h
    rw [← h]

/-- Concrete instance of `package_blockhash_reporting`: the swap package
built by `baseWorld` reports the node's freshly fetched `"BLOCKHASH"`. -/
theorem package_blockhash_reporting_witness :
    baseWorld.latestBlockhash = .ok "BLOCKHASH" :=
  (package_blockhash_reporting baseWorld baseConfig).2 "SOL" "USDC" 1 "PAYER"
    ("AGGTX",
     { expectedOutput := from_base_units 1000 6, priceImpact := 0, routeSteps := 1 },
     ["PAYER"], "BLOCKHASH")
    (by with_unfolding_all rfl)

/-! ## Claim C7 -/

theorem except_error_or_ok {ε α : Type} (x : Except ε α) :
    (∃ e, x = .error e) ∨ (∃ a, x = .ok a) := by
  cases x with
  | error e => exact Or.inl ⟨e, rfl⟩
  | ok a => exact Or.inr ⟨a, rfl⟩

theorem option_none_or_some {α : Type} (x : Option α) :
    x = none ∨ ∃ a, x = some a := by
  cases x with
  | none => exact Or.inl rfl
  | some a => exact Or.inr ⟨a, rfl⟩

theorem http_result_cases {α : Type} (x : HttpResult α) :
    (∃ e, x = .transportError e) ∨ (∃ b, x = .badStatus b) ∨ (∃ v, x = .ok v) := by
  cases x with
  | transportError e => exact Or.inl ⟨e, rfl⟩
  | badStatus b => exact Or.inr (Or.inl ⟨b, rfl⟩)
  | ok v => exact Or.inr (Or.inr ⟨v, rfl⟩)

theorem get_quote_trace (w : World) (cfg : Config) (a b : String) (amt : ℕ) :
    (get_quote w cfg a b amt).2 =
      [.quoteReq { inputMint := a, outputMint := b, amount := amt,
                   slippageBps := cfg.slippageBps }] := by
  unfold get_quote
  rcases http_result_cases (w.quoteApi
    { inputMint := a, outputMint := b, amount := amt,
      slippageBps := cfg.slippageBps }) with ⟨e, h⟩ | ⟨bo, h⟩ | ⟨v, h⟩ <;> simp [h]

theorem get_swap_transaction_trace (w : World) (quote : QuoteResponse) (u : Address) :
    (get_swap_transaction w quote u).2 = [.buildReq (buildSwapRequest quote u)] := by
  unfold get_swap_transaction
  rcases http_result_cases (w.swapApi (buildSwapRequest quote u)) with
    ⟨e, h⟩ | ⟨bo, h⟩ | ⟨resp, h⟩
  · simp [h]
  · simp [h]
  · rcases option_none_or_some resp.simulationError with h2 | ⟨err, h2⟩ <;> simp [h, h2]

theorem prepare_swap_negotiation_trace (w : World) (cfg : Config)
    (fromSymbol toSymbol : String) (amount : ℚ) (payer : Address) :
    (prepare_swap_transaction w cfg fromSymbol toSymbol amount payer).2.filter
      Event.isNegotiation =
      negotiation_trace w cfg fromSymbol toSymbol amount payer := by
  unfold prepare_swap_transaction negotiation_trace
  rcases except_error_or_ok (get_token_mint w cfg fromSymbol) with ⟨e1, h1⟩ | ⟨im, h1⟩
  · simp [h1]
  rcases except_error_or_ok (get_token_mint w cfg toSymbol) with ⟨e2, h2⟩ | ⟨om, h2⟩
  · simp [h1, h2]
  rcases except_error_or_ok ((get_quote w cfg im om (to_base_units amount
      (if toUpperString fromSymbol = "SOL" then 9 else 6))).1) with
    ⟨e3, h3⟩ | ⟨quote, h3⟩
  · simp [h1, h2, h3, get_quote_trace, Event.isNegotiation]
  rcases option_none_or_some (parseU64 quote.outAmount) with h4 | ⟨outUnits, h4⟩
  · simp [h1, h2, h3, h4, get_quote_trace, Event.isNegotiation]
  rcases option_none_or_some (w.parseF64 quote.priceImpactPct) with h5 | ⟨impact, h5⟩
  · simp [h1, h2, h3, h4, h5, get_quote_trace, Event.isNegotiation]
  rcases except_error_or_ok ((get_swap_transaction w quote payer).1) with
    ⟨e6, h6⟩ | ⟨resp, h6⟩
  · simp [h1, h2, h3, h4, h5, h6, get_quote_trace, get_swap_transaction_trace,
      Event.isNegotiation]
  rcases except_error_or_ok (w.base64Decode resp.swapTransaction) with
    ⟨e7, h7⟩ | ⟨txBytes, h7⟩
  · simp [h1, h2, h3, h4, h5, h6, h7, get_quote_trace, get_swap_transaction_trace,
      Event.isNegotiation]
  rcases except_error_or_ok (w.deserializeVersioned txBytes) with ⟨e8, h8⟩ | ⟨vtx, h8⟩
  · simp [h1, h2, h3, h4, h5, h6, h7, h8, get_quote_trace, get_swap_transaction_trace,
      Event.isNegotiation]
  rcases except_error_or_ok w.latestBlockhash with ⟨e9, h9⟩ | ⟨bh, h9⟩ <;>
    simp [h1, h2, h3, h4, h5, h6, h7, h8, h9, get_quote_trace,
      get_swap_transaction_trace, Event.isNegotiation]

theorem swap_tokens_negotiation_trace (w : World) (cfg : Config)
    (fromSymbol toSymbol : String) (amount : ℚ) (payer : Address)
    (hkp : w.keypairPubkey = .ok payer) :
    (swap_tokens w cfg fromSymbol toSymbol amount).2.filter Event.isNegotiation =
      negotiation_trace w cfg fromSymbol toSymbol amount payer := by
  unfold swap_tokens negotiation_trace
  rcases except_error_or_ok (get_token_mint w cfg fromSymbol) with ⟨e1, h1⟩ | ⟨im, h1⟩
  · simp [hkp, h1]
  rcases except_error_or_ok (get_token_mint w cfg toSymbol) with ⟨e2, h2⟩ | ⟨om, h2⟩
  · simp [hkp, h1, h2]
  rcases except_error_or_ok ((get_quote w cfg im om (to_base_units amount
      (if toUpperString fromSymbol = "SOL" then 9 else 6))).1) with
    ⟨e3, h3⟩ | ⟨quote, h3⟩
  · simp [hkp, h1, h2, h3, get_quote_trace, Event.isNegotiation]
  rcases option_none_or_some (parseU64 quote.outAmount) with h4 | ⟨outUnits, h4⟩
  · simp [hkp, h1, h2, h3, h4, get_quote_trace, Event.isNegotiation]
  rcases option_none_or_some (w.parseF64 quote.priceImpactPct) with h5 | ⟨impact, h5⟩
  · simp [hkp, h1, h2, h3, h4, h5, get_quote_trace, Event.isNegotiation]
  rcases except_error_or_ok ((get_swap_transaction w quote payer).1) with
    ⟨e6, h6⟩ | ⟨resp, h6⟩
  · simp [hkp, h1, h2, h3, h4, h5, h6, get_quote_trace, get_swap_transaction_trace,
      Event.isNegotiation]
  rcases except_error_or_ok (w.base58Decode resp.swapTransaction) with
    ⟨e7, h7⟩ | ⟨txBytes, h7⟩
  · simp [hkp, h1, h2, h3, h4, h5, h6, h7, get_quote_trace,
      get_swap_transaction_trace, Event.isNegotiation]
  rcases except_error_or_ok (w.deserializeLegacy txBytes) with ⟨e8, h8⟩ | ⟨tx, h8⟩
  · simp [hkp, h1, h2, h3, h4, h5, h6, h7, h8, get_quote_trace,
      get_swap_transaction_trace, Event.isNegotiation]
  rcases except_error_or_ok (w.sendLegacy (Transaction.signWith w.sign tx payer
      tx.message.recentBlockhash)) with ⟨e9, h9⟩ | ⟨sg, h9⟩ <;>
    simp [hkp, h1, h2, h3, h4, h5, h6, h7, h8, h9, get_quote_trace,
      get_swap_transaction_trace, Event.isNegotiation]

theorem swap_tokens_with_keypair_negotiation_trace (w : World) (cfg : Config)
    (fromSymbol toSymbol : String) (amount : ℚ) (payer : Address) :
    (swap_tokens_with_keypair w cfg fromSymbol toSymbol amount (some payer)).2.filter
      Event.isNegotiation =
      negotiation_trace w cfg fromSymbol toSymbol amount payer := by
  unfold swap_tokens_with_keypair negotiation_trace
  rcases except_error_or_ok (get_token_mint w cfg fromSymbol) with ⟨e1, h1⟩ | ⟨im, h1⟩
  · simp [h1]
  rcases except_error_or_ok (get_token_mint w cfg toSymbol) with ⟨e2, h2⟩ | ⟨om, h2⟩
  · simp [h1, h2]
  rcases except_error_or_ok ((get_quote w cfg im om (to_base_units amount
      (if toUpperString fromSymbol = "SOL" then 9 else 6))).1) with
    ⟨e3, h3⟩ | ⟨quote, h3⟩
  · simp [h1, h2, h3, get_quote_trace, Event.isNegotiation]
  rcases option_none_or_some (parseU64 quote.outAmount) with h4 | ⟨outUnits, h4⟩
  · simp [h1, h2, h3, h4, get_quote_trace, Event.isNegotiation]
  rcases option_none_or_some (w.parseF64 quote.priceImpactPct) with h5 | ⟨impact, h5⟩
  · simp [h1, h2, h3, h4, h5, get_quote_trace, Event.isNegotiation]
  rcases except_error_or_ok ((get_swap_transaction w quote payer).1) with
    ⟨e6, h6⟩ | ⟨resp, h6⟩
  · simp [h1, h2, h3, h4, h5, h6, get_quote_trace, get_swap_transaction_trace,
      Event.isNegotiation]
  rcases except_error_or_ok (w.base64Decode resp.swapTransaction) with
    ⟨e7, h7⟩ | ⟨txBytes, h7⟩
  · simp [h1, h2, h3, h4, h5, h6, h7, get_quote_trace, get_swap_transaction_trace,
      Event.isNegotiation]
  rcases except_error_or_ok (w.deserializeVersioned txBytes) with ⟨e8, h8⟩ | ⟨vtx, h8⟩
  · simp [h1, h2, h3, h4, h5, h6, h7, h8, get_quote_trace,
      get_swap_transaction_trace, Event.isNegotiation]
  rcases except_error_or_ok (w.trySignVersioned vtx.message payer) with
    ⟨e9, h9⟩ | ⟨stx, h9⟩
  · simp [h1, h2, h3, h4, h5, h6, h7, h8, h9, get_quote_trace,
      get_swap_transaction_trace, Event.isNegotiation]
  rcases except_error_or_ok (w.sendVersioned stx) with ⟨e10, h10⟩ | ⟨sg, h10⟩ <;>
    simp [h1, h2, h3, h4, h5, h6, h7, h8, h9, h10, get_quote_trace,
      get_swap_transaction_trace, Event.isNegotiation]

/-- Claim C7: given the same pair, amount and payer, the local-signing swap
paths (`swap_tokens`, `swap_tokens_with_keypair`) and the remote-signer
`prepare_swap_transaction` path issue the identical quote-then-build request
sequence (same mints, same decimal choice and base-unit conversion, same
quote request, same build request); and whenever the remote-signer path
returns a package, each local path holds the byte-identical unsigned swap
transaction at its decode step before the paths diverge at signing. -/
theorem swap_paths_share_negotiation (w : World) (cfg : Config)
    (fromSymbol toSymbol : String) (amount : ℚ) (payer : Address)
    (hkp : w.keypairPubkey = .ok payer) :
    ((swap_tokens w cfg fromSymbol toSymbol amount).2.filter Event.isNegotiation =
      (prepare_swap_transaction w cfg fromSymbol toSymbol amount payer).2.filter
        Event.isNegotiation) ∧
    ((swap_tokens_with_keypair w cfg fromSymbol toSymbol amount (some payer)).2.filter
        Event.isNegotiation =
      (prepare_swap_transaction w cfg fromSymbol toSymbol amount payer).2.filter
        Event.isNegotiation) ∧
    (∀ pkg,
      (prepare_swap_transaction w cfg fromSymbol toSymbol amount payer).1 = .ok pkg →
      Event.decodeB58 pkg.1 ∈ (swap_tokens w cfg fromSymbol toSymbol amount).2 ∧
      Event.decodeB64 pkg.1 ∈
        (swap_tokens_with_keypair w cfg fromSymbol toSymbol amount (some payer)).2) := by
  refine ⟨?_, ?_, ?_⟩
  · rw [swap_tokens_negotiation_trace w cfg fromSymbol toSymbol amount payer hkp,
      prepare_swap_negotiation_trace]
  · rw [swap_tokens_with_keypair_negotiation_trace,
      prepare_swap_negotiation_trace]
  · intro pkg h
    unfold prepare_swap_transaction at h
    cases h1 : get_token_mint w cfg fromSymbol with
    | error e => simp [h1] at h
    | ok im =>
    simp only [h1] at h
    cases h2 : get_token_mint w cfg toSymbol with
    | error e => simp [h2] at h
    | ok om =>
    simp only [h2] at h
    cases h3 : (get_quote w cfg im om (to_base_units amount
        (if toUpperString fromSymbol = "SOL" then 9 else 6))).1 with
    | error e => simp [h3] at h
    | ok quote =>
    simp only [h3] at h
    cases h4 : parseU64 quote.outAmount with
    | none => simp [h4] at h
    | some outUnits =>
    simp only [h4] at h
    cases h5 : w.parseF64 quote.priceImpactPct with
    | none => simp [h5] at h
    | some impact =>
    simp only [h5] at h
    cases h6 : (get_swap_transaction w quote payer).1 with
    | error e => simp [h6] at h
    | ok resp =>
    simp only [h6] at h
    cases h7 : w.base64Decode resp.swapTransaction with
    | error e => simp [h7] at h
    | ok txBytes =>
    simp only [h7] at h
    cases h8 : w.deserializeVersioned txBytes with
    | error e => simp [h8] at h
    | ok versionedTx =>
    simp only [h8] at h
    cases h9 : w.latestBlockhash with
    | error e => simp [h9] at h
    | ok recentBlockhash =>
    simp only [h9] at h
    simp only [Except.ok.injEq] at h
    have hfst : pkg.1 = resp.swapTransaction := by rw [← h]
    constructor
    · unfold swap_tokens
      simp only [hkp, h1, h2, h3, h4, h5, h6, hfst]
      rcases except_error_or_ok (w.base58Decode resp.swapTransaction) with
        ⟨e, hb⟩ | ⟨bs, hb⟩
      · simp [hb]
      rcases except_error_or_ok (w.deserializeLegacy bs) with ⟨e, hd⟩ | ⟨tx, hd⟩
      · simp [hb, hd]
      rcases except_error_or_ok (w.sendLegacy (Transaction.signWith w.sign tx payer
          tx.message.recentBlockhash)) with ⟨e, hs⟩ | ⟨sg, hs⟩ <;>
        simp [hb, hd, hs]
    · unfold swap_tokens_with_keypair
      simp only [h1, h2, h3, h4, h5, h6, h7, h8, hfst]
      rcases except_error_or_ok (w.trySignVersioned versionedTx.message payer) with
        ⟨e, ht⟩ | ⟨stx, ht⟩
      · simp [ht]
      rcases except_error_or_ok (w.sendVersioned stx) with ⟨e, hs⟩ | ⟨sg, hs⟩ <;>
        simp [ht, hs]

/-- Concrete instance of `swap_paths_share_negotiation`: over `baseWorld`
the local-signing path and the remote-signer path issue the same
quote/build requests. -/
theorem swap_paths_share_negotiation_witness :
    (swap_tokens baseWorld baseConfig "SOL" "USDC" 1).2.filter Event.isNegotiation =
      (prepare_swap_transaction baseWorld baseConfig "SOL" "USDC" 1 "PAYER").2.filter
        Event.isNegotiation :=
  (swap_paths_share_negotiation baseWorld baseConfig "SOL" "USDC" 1 "PAYER" rfl).1

end CliSolanize
